import Mathlib

/-
Shallow embedding of the Gastron lightcycle simulation core
(src/gastron/utils.py, player.py, ai.py, powerups.py, settings.py, game.py)
together with theorems settling the frozen claims about its specification.

Modelling conventions:
- Python ints are `Int` (grid coordinates, key codes, timers); counters that
  the code keeps non-negative by construction (ammo, BFS score, fuel) are `Nat`.
- Python `set` is `Finset`; Python `list` is `List` (pop(0) = head, append = tail).
- pygame sprite/rect/surface fields and particle/audio calls are rendering-only
  and carry no simulation state, so they are omitted from the embedded state.
- The AI's `random.random() < p` and `random.choice(xs)` outcomes are passed in
  explicitly as an oracle value, so theorems quantify over every random outcome.
-/

namespace Gastron

/-- Grid positions and direction vectors are integer pairs (utils.py). -/
abbrev Pos := Int × Int

def SCREEN_WIDTH : Int := 1200

def SCREEN_HEIGHT : Int := 760

def GRID_SIZE : Int := 10

def UP : Pos := (0, -1)

def DOWN : Pos := (0, 1)

def LEFT : Pos := (-1, 0)

def RIGHT : Pos := (1, 0)

/-- DIRECTIONS tuple from utils.py, in source order. -/
def DIRECTIONS : List Pos := [UP, DOWN, LEFT, RIGHT]

/-- utils.is_opposite: two directions are opposite vectors. -/
def is_opposite (a b : Pos) : Bool :=
  a.1 == -b.1 && a.2 == -b.2

/-- utils.add_direction: move a grid-aligned position by direction * step. -/
def add_direction (position direction : Pos) (step : Int) : Pos :=
  (position.1 + direction.1 * step, position.2 + direction.2 * step)

/-- add_direction at its default step GRID_SIZE. -/
def add_dir (position direction : Pos) : Pos :=
  add_direction position direction GRID_SIZE

/-- utils.in_bounds: a cell is inside the playfield. -/
def in_bounds (position : Pos) : Bool :=
  decide (0 ≤ position.1 ∧ position.1 < SCREEN_WIDTH ∧
          0 ≤ position.2 ∧ position.2 < SCREEN_HEIGHT)

/-- player.PowerState: active temporary effect timers. -/
structure PowerState where
  speed_timer : Int
  shield_timer : Int
deriving DecidableEq, Repr

/-- player.LightCycle logical state (sprite surface/rect fields omitted:
they mirror `position` for rendering only). -/
structure LightCycle where
  player_id : Int
  name : String
  controls : List (Int × Pos)
  shoot_key : Int
  start_pos : Pos
  start_dir : Pos
  position : Pos
  direction : Pos
  pending_direction : Option Pos
  trail : List Pos
  trail_set : Finset Pos
  alive : Bool
  score : Int
  ammo : Nat
  power_state : PowerState
deriving DecidableEq

/-- LightCycle.reset_round: reset runtime state for a new round. -/
def reset_round (c : LightCycle) : LightCycle :=
  { c with
    position := c.start_pos
    direction := c.start_dir
    pending_direction := none
    trail := []
    trail_set := ∅
    alive := true
    ammo := 0
    power_state := { speed_timer := 0, shield_timer := 0 } }

/-- Dict lookup `self.controls[key]` guarded by `key not in self.controls`. -/
def lookupControl (controls : List (Int × Pos)) (key : Int) : Option Pos :=
  (controls.find? (fun kv => kv.1 == key)).map Prod.snd

/-- LightCycle.queue_turn: queue the next direction if the input is legal. -/
def queue_turn (c : LightCycle) (key : Int) : LightCycle :=
  match lookupControl c.controls key with
  | none => c
  | some candidate =>
    if candidate == c.direction || is_opposite candidate c.direction then c
    else { c with pending_direction := some candidate }

/-- LightCycle.apply_pending_turn: apply the queued direction change. -/
def apply_pending_turn (c : LightCycle) : LightCycle :=
  match c.pending_direction with
  | none => c
  | some p =>
    if is_opposite p c.direction then { c with pending_direction := none }
    else { c with direction := p, pending_direction := none }

/-- LightCycle.next_position: next grid position from current heading. -/
def next_position (c : LightCycle) : Pos :=
  add_dir c.position c.direction

/-- The pop/discard loop body of LightCycle.consume_trail_segment, run a
fixed number of times: pop the oldest trail cell and discard it from the set. -/
def consumeLoop : Nat → LightCycle → LightCycle
  | 0, c => c
  | n + 1, c =>
    match c.trail with
    | [] => c
    | removed :: rest =>
      consumeLoop n { c with trail := rest, trail_set := c.trail_set.erase removed }

/-- LightCycle.consume_trail_segment: erase up to max_count oldest trail cells. -/
def consume_trail_segment (c : LightCycle) (max_count : Nat) : LightCycle :=
  consumeLoop (min max_count c.trail.length) c

/-- LightCycle.tick_effects: advance effect timers by one step, floored at 0. -/
def tick_effects (c : LightCycle) : LightCycle :=
  { c with power_state :=
      { speed_timer := max 0 (c.power_state.speed_timer - 1)
        shield_timer := max 0 (c.power_state.shield_timer - 1) } }

/-- LightCycle.has_shield property. -/
def has_shield (c : LightCycle) : Bool :=
  decide (0 < c.power_state.shield_timer)

/-- powerups.PowerUpType variants. -/
inductive PowerUpType where
  | speed
  | shield
  | eraser
  | weapon
deriving DecidableEq, Repr

/-- powerups.PowerUpManager.apply: apply the effects of a picked-up power-up,
returning the updated cycle and the user-facing message. -/
def PowerUpManager.apply (c : LightCycle) (kind : PowerUpType) : LightCycle × String :=
  match kind with
  | .speed =>
    ({ c with power_state := { c.power_state with speed_timer := 80 } },
     "Speed boost activated")
  | .shield =>
    ({ c with power_state := { c.power_state with shield_timer := 70 } },
     "Shield online")
  | .eraser => (consume_trail_segment c 35, "Trail section erased")
  | .weapon => ({ c with ammo := c.ammo + 3 }, "Pulse weapon loaded")

/-- powerups.PowerUp entity state (sprite fields omitted). -/
structure PowerUpEntity where
  kind : PowerUpType
  position : Pos
deriving DecidableEq, Repr

/-- The power-up pickup test and effect of TronGame._simulate_step:
`spritecollideany` on equal-sized grid-aligned 10x10 rects collides exactly
when the cells coincide, so it is membership at the player's position; the
hit power-up is removed (`hit.kill()`). -/
def pickupPhase (c : LightCycle) (powerups : List PowerUpEntity) :
    LightCycle × List PowerUpEntity :=
  match powerups.find? (fun pu => pu.position == c.position) with
  | none => (c, powerups)
  | some hit =>
    ((PowerUpManager.apply c hit.kind).1,
     powerups.eraseP (fun pu => pu.position == c.position))

/-- The per-player movement-and-pickup phase of TronGame._simulate_step
(game.py lines 424-439): a dead player is skipped; a survivor pushes its
previous position onto trail sequence and set, advances to the computed next
position, and then tests for power-up pickup. -/
def movePhase (deadFlag : Bool) (nxt : Pos) (c : LightCycle)
    (powerups : List PowerUpEntity) : LightCycle × List PowerUpEntity :=
  if deadFlag then (c, powerups)
  else
    pickupPhase
      { c with
        trail := c.trail ++ [c.position]
        trail_set := insert c.position c.trail_set
        position := nxt }
      powerups

/-- The projectile trail-cutting effect of TronGame._simulate_step
(game.py lines 393-396): when the projectile position is in the victim's
trail set, discard it from the set and filter it out of the sequence. -/
def cut_trail (c : LightCycle) (position : Pos) : LightCycle :=
  if position ∈ c.trail_set then
    { c with
      trail_set := c.trail_set.erase position
      trail := c.trail.filter (fun p => p ≠ position) }
  else c

/-- The trail/membership-set synchronization invariant of the spec: the
ordered sequence has no duplicates and holds exactly the cells of the set. -/
def inSync (c : LightCycle) : Prop :=
  c.trail.Nodup ∧ c.trail.toFinset = c.trail_set

instance (c : LightCycle) : Decidable (inSync c) := by
  unfold inSync; infer_instance

/-- ai.GameSnapshot: read-only board snapshot handed to the AI. -/
structure GameSnapshot where
  ai_position : Pos
  ai_direction : Pos
  opponent_position : Pos
  occupied : Finset Pos
deriving DecidableEq

/-- The inner look-ahead loop of TronAI._safe_directions: walk `look_ahead`
steps from `position` in `direction`, reporting whether any step lands in the
occupied set or out of bounds. -/
def blockedFrom (s : GameSnapshot) (direction : Pos) : Nat → Pos → Bool
  | 0, _ => false
  | n + 1, position =>
    let position2 := add_dir position direction
    if decide (position2 ∈ s.occupied) || !in_bounds position2 then true
    else blockedFrom s direction n position2

/-- TronAI._safe_directions: directions (in DIRECTIONS order) that are not the
reverse of the current heading and stay clear for `look_ahead` cells. -/
def safe_directions (s : GameSnapshot) (look_ahead : Nat) : List Pos :=
  DIRECTIONS.filter
    (fun d => !is_opposite d s.ai_direction && !blockedFrom s d look_ahead s.ai_position)

/-- The breadth-first while-loop of TronAI._space_score: pop the frontier head,
count it, push unvisited free in-bounds neighbours (in DIRECTIONS order) onto
the frontier tail; the fuel is the remaining `depth * 40 - steps` budget. -/
def bfsAux (occ : Finset Pos) : Nat → List Pos → Finset Pos → Nat → Nat
  | 0, _, _, score => score
  | _ + 1, [], _, score => score
  | fuel + 1, current :: rest, visited, score =>
    let expanded :=
      DIRECTIONS.foldl
        (fun (acc : List Pos × Finset Pos) candidate =>
          let nxt := add_dir current candidate
          if decide (nxt ∈ acc.2) || decide (nxt ∈ occ) || !in_bounds nxt then acc
          else (acc.1 ++ [nxt], insert nxt acc.2))
        (rest, visited)
    bfsAux occ fuel expanded.1 expanded.2 (score + 1)

/-- TronAI._space_score: flood-fill count of reachable free cells from the
first step in `direction`, budgeted at `depth * 40` visited nodes; a blocked
or out-of-bounds start returns the -9999 sentinel. -/
def space_score (s : GameSnapshot) (direction : Pos) (depth : Nat) : Int :=
  let start := add_dir s.ai_position direction
  if !in_bounds start || decide (start ∈ s.occupied) then -9999
  else (bfsAux s.occupied (depth * 40) [start] {start} 0 : Int)

/-- TronAI._manhattan distance. -/
def manhattan (a b : Pos) : Int :=
  |a.1 - b.1| + |a.2 - b.2|

/-- First element of the list attaining the maximal key: the behaviour of
Python's stable `sorted(xs, reverse=True)[0]` (equal keys keep source order). -/
def firstMaxBy {β : Type} [LinearOrder β] (f : Pos → β) : List Pos → Option Pos
  | [] => none
  | x :: xs =>
    match firstMaxBy f xs with
    | none => some x
    | some y => if f x < f y then some y else some x

/-- Outcomes of the AI's internal random source for one decision:
the `random.random() < 0.65` draw and the `random.choice` index. -/
structure RandOracle where
  keepCurrent : Bool
  choiceIx : Nat

/-- TronAI._easy. -/
def easyChoice (r : RandOracle) (s : GameSnapshot) : Pos :=
  let safe := safe_directions s 1
  if safe.isEmpty then s.ai_direction
  else if decide (s.ai_direction ∈ safe) && r.keepCurrent then s.ai_direction
  else safe.getD (r.choiceIx % safe.length) s.ai_direction

/-- TronAI._medium: 3-cell look-ahead filter, then the best depth-4 space
score (stable sort descending, take the first). -/
def mediumChoice (s : GameSnapshot) : Pos :=
  let options := safe_directions s 3
  if options.isEmpty then s.ai_direction
  else (firstMaxBy (fun d => space_score s d 4) options).getD s.ai_direction

/-- TronAI._hard score for one option: depth-6 space score plus the
aggression term `-manhattan * 0.35`; the float factor 0.35 is embedded as the
exact rational 35/100. -/
def hardScore (s : GameSnapshot) (option : Pos) : ℚ :=
  (space_score s option 6 : ℚ) -
    (manhattan (add_dir s.ai_position option) s.opponent_position : ℚ) * (35 / 100)

/-- TronAI._hard: 4-cell look-ahead filter, then the best hardScore
(stable sort descending, take the first). -/
def hardChoice (s : GameSnapshot) : Pos :=
  let options := safe_directions s 4
  if options.isEmpty then s.ai_direction
  else (firstMaxBy (hardScore s) options).getD s.ai_direction

/-- settings.AIDifficulty presets. -/
inductive AIDifficulty where
  | easy
  | medium
  | hard
deriving DecidableEq, Repr

/-- TronAI.choose_direction: dispatch on the configured difficulty. -/
def choose_direction (difficulty : AIDifficulty) (r : RandOracle)
    (s : GameSnapshot) : Pos :=
  match difficulty with
  | .easy => easyChoice r s
  | .medium => mediumChoice s
  | .hard => hardChoice s

/-- The swap/head-on test of detect_round_collision and _simulate_step:
equal next positions, or a pass-through swap of current positions. -/
def swapCond (next1 next2 cur1 cur2 : Pos) : Bool :=
  next1 == next2 || (next1 == cur2 && next2 == cur1)

/-- The per-player if/elif of detect_round_collision: out of bounds kills;
otherwise landing on the occupied set kills unless shielded; otherwise the
death flag keeps the value set by the swap rule. -/
def ruleDead (swap : Bool) (nxt : Pos) (occupied : Finset Pos) (shield : Bool) : Bool :=
  if !in_bounds nxt then true
  else if decide (nxt ∈ occupied) && !shield then true
  else swap

/-- game.detect_round_collision: death flags for players 1 and 2 given both
next positions, the pre-move occupied set, shields, and current positions. -/
def detect_round_collision (next1 next2 : Pos) (occupied : Finset Pos)
    (shield1 shield2 : Bool) (cur1 cur2 : Pos) : Bool × Bool :=
  let swap := swapCond next1 next2 cur1 cur2
  (ruleDead swap next1 occupied shield1, ruleDead swap next2 occupied shield2)

/-- The externally-supplied settings payload slice relevant to the tournament
best-of count: `none` models an absent key in the JSON dict. -/
structure RawSettings where
  tournament_best_of : Option Int
deriving DecidableEq, Repr

/-- The `tournament_best_of` line of SettingsManager.load:
`int(raw.get("tournament_best_of", 5))` — the raw integer is stored as-is,
with no range validation; an absent key falls back to the default 5. -/
def load_tournament_best_of (raw : RawSettings) : Int :=
  raw.tournament_best_of.getD 5

/-- GameSettings.rounds_to_win: `max(1, tournament_best_of // 2 + 1)`;
Python floor division is Int.fdiv. -/
def rounds_to_win (tournament_best_of : Int) : Int :=
  max 1 (Int.fdiv tournament_best_of 2 + 1)

/-- A concrete mid-round cycle state (right-moving, two trail cells, left key
bound to code 5) used to instantiate universally quantified theorems. -/
def sampleCycle : LightCycle :=
  { player_id := 1
    name := "P1"
    controls := [(5, LEFT)]
    shoot_key := 9
    start_pos := (300, 380)
    start_dir := (1, 0)
    position := (320, 380)
    direction := (1, 0)
    pending_direction := none
    trail := [(300, 380), (310, 380)]
    trail_set := {(300, 380), (310, 380)}
    alive := true
    score := 0
    ammo := 0
    power_state := { speed_timer := 0, shield_timer := 0 } }

/-- A concrete shielded cycle whose next cell (110,100) is already on its own
trail: the state reached after looping back next to one's trail with an
active shield. -/
def overlapCycle : LightCycle :=
  { player_id := 2
    name := "AI"
    controls := []
    shoot_key := 9
    start_pos := (900, 380)
    start_dir := (-1, 0)
    position := (100, 100)
    direction := (1, 0)
    pending_direction := none
    trail := [(110, 100)]
    trail_set := {(110, 100)}
    alive := true
    score := 0
    ammo := 0
    power_state := { speed_timer := 0, shield_timer := 70 } }

/-! ## Helper lemmas on the collision resolver -/

theorem ruleDead_of_swap (nxt : Pos) (occ : Finset Pos) (sh : Bool) :
    ruleDead true nxt occ sh = true := by
  unfold ruleDead
  split
  · rfl
  · split
    · rfl
    · rfl

theorem ruleDead_out_of_bounds (swap : Bool) (nxt : Pos) (occ : Finset Pos) (sh : Bool)
    (h : in_bounds nxt = false) : ruleDead swap nxt occ sh = true := by
  simp [ruleDead, h]

theorem ruleDead_trail (swap : Bool) (nxt : Pos) (occ : Finset Pos) (sh : Bool)
    (hb : in_bounds nxt = true) (hm : nxt ∈ occ) :
    ruleDead swap nxt occ sh = (!sh || swap) := by
  cases sh <;> simp [ruleDead, hb, hm]

/-- C1: swap/head-on rule — if the two next positions are identical, or they
pass through each other (next1 = cur2 and next2 = cur1), the collision
resolver marks both cycles dead regardless of either shield. -/
theorem collision_swap_head_on_kills_both (next1 next2 cur1 cur2 : Pos)
    (occupied : Finset Pos) (shield1 shield2 : Bool)
    (h : next1 = next2 ∨ (next1 = cur2 ∧ next2 = cur1)) :
    (detect_round_collision next1 next2 occupied shield1 shield2 cur1 cur2).1 = true ∧
    (detect_round_collision next1 next2 occupied shield1 shield2 cur1 cur2).2 = true := by
  have hswap : swapCond next1 next2 cur1 cur2 = true := by
    rcases h with rfl | ⟨rfl, rfl⟩ <;> simp [swapCond]
  unfold detect_round_collision
  rw [hswap]
  exact ⟨ruleDead_of_swap _ _ _, ruleDead_of_swap _ _ _⟩

/-- Witness for C1 at the spec's own example: both next positions (100,100). -/
theorem collision_swap_head_on_kills_both_witness :
    ((100, 100) : Pos) = (100, 100) ∧
    (detect_round_collision (100, 100) (100, 100) ∅ false false (90, 100) (110, 100)).1 = true ∧
    (detect_round_collision (100, 100) (100, 100) ∅ false false (90, 100) (110, 100)).2 = true :=
  ⟨rfl,
   collision_swap_head_on_kills_both (100, 100) (100, 100) (90, 100) (110, 100)
     ∅ false false (Or.inl rfl)⟩

/-- C2: boundary rule — an out-of-bounds next position kills its cycle
regardless of shield; trail rule — an in-bounds next position in the pre-move
occupied set kills its cycle exactly when its shield is inactive, provided the
independent swap rule did not already fire. -/
theorem collision_boundary_and_trail_rules (next1 next2 cur1 cur2 : Pos)
    (occupied : Finset Pos) (shield1 shield2 : Bool) :
    (in_bounds next1 = false →
      (detect_round_collision next1 next2 occupied shield1 shield2 cur1 cur2).1 = true) ∧
    (in_bounds next2 = false →
      (detect_round_collision next1 next2 occupied shield1 shield2 cur1 cur2).2 = true) ∧
    (in_bounds next1 = true → next1 ∈ occupied → swapCond next1 next2 cur1 cur2 = false →
      ((detect_round_collision next1 next2 occupied shield1 shield2 cur1 cur2).1 = true ↔
        shield1 = false)) ∧
    (in_bounds next2 = true → next2 ∈ occupied → swapCond next1 next2 cur1 cur2 = false →
      ((detect_round_collision next1 next2 occupied shield1 shield2 cur1 cur2).2 = true ↔
        shield2 = false)) := by
  refine ⟨?_, ?_, ?_, ?_⟩
  · intro hb
    exact ruleDead_out_of_bounds _ _ _ _ hb
  · intro hb
    exact ruleDead_out_of_bounds _ _ _ _ hb
  · intro hb hm hs
    unfold detect_round_collision
    rw [hs]
    show ruleDead false next1 occupied shield1 = true ↔ shield1 = false
    rw [ruleDead_trail false next1 occupied shield1 hb hm]
    cases shield1 <;> simp
  · intro hb hm hs
    unfold detect_round_collision
    rw [hs]
    show ruleDead false next2 occupied shield2 = true ↔ shield2 = false
    rw [ruleDead_trail false next2 occupied shield2 hb hm]
    cases shield2 <;> simp

/-- Witness for C2: an out-of-bounds next position for player 1 and a shielded
trail landing for player 2. -/
theorem collision_boundary_and_trail_rules_witness :
    in_bounds ((-10, 100) : Pos) = false ∧
    (detect_round_collision (-10, 100) (200, 200) {(200, 200)} false true
      (0, 100) (190, 200)).1 = true ∧
    (in_bounds ((200, 200) : Pos) = true ∧ ((200, 200) : Pos) ∈ ({(200, 200)} : Finset Pos) ∧
      swapCond (-10, 100) (200, 200) (0, 100) (190, 200) = false) ∧
    ¬ (detect_round_collision (-10, 100) (200, 200) {(200, 200)} false true
      (0, 100) (190, 200)).2 = true := by
  refine ⟨by decide, ?_, ⟨by decide, by decide, by decide⟩, ?_⟩
  · exact (collision_boundary_and_trail_rules (-10, 100) (200, 200) (0, 100) (190, 200)
      {(200, 200)} false true).1 (by decide)
  · intro htrue
    have := ((collision_boundary_and_trail_rules (-10, 100) (200, 200) (0, 100) (190, 200)
      {(200, 200)} false true).2.2.2 (by decide) (by decide) (by decide)).mp htrue
    simp at this

/-- C3: reversal requests are silently dropped for human input (queue_turn
leaves the pending heading untouched when the key maps to the reverse of the
current heading) and for direct pending-heading writes as the AI path uses
(apply_pending_turn never changes the heading to its exact reverse, and clears
the pending heading, so heading and pending heading are never opposite after
a turn is applied). -/
theorem reversal_requests_silently_dropped (c : LightCycle) (key : Int) (d : Pos)
    (hc : lookupControl c.controls key = some d)
    (hop : is_opposite d c.direction = true) :
    (queue_turn c key).pending_direction = c.pending_direction ∧
    ((apply_pending_turn c).direction ≠ c.direction →
      is_opposite (apply_pending_turn c).direction c.direction = false) ∧
    (apply_pending_turn c).pending_direction = none := by
  refine ⟨?_, ?_, ?_⟩
  · simp [queue_turn, hc, hop]
  · intro hch
    cases hpd : c.pending_direction with
    | none => simp [apply_pending_turn, hpd] at hch
    | some p =>
      cases ho : is_opposite p c.direction with
      | true => simp [apply_pending_turn, hpd, ho] at hch
      | false =>
        simp [apply_pending_turn, hpd, ho]
  · cases hpd : c.pending_direction with
    | none => simp [apply_pending_turn, hpd]
    | some p =>
      cases ho : is_opposite p c.direction <;> simp [apply_pending_turn, hpd, ho]

/-- Witness for C3: the sample right-moving cycle receiving its left key. -/
theorem reversal_requests_silently_dropped_witness :
    lookupControl sampleCycle.controls 5 = some LEFT ∧
    is_opposite LEFT sampleCycle.direction = true ∧
    ((queue_turn sampleCycle 5).pending_direction = sampleCycle.pending_direction ∧
      ((apply_pending_turn sampleCycle).direction ≠ sampleCycle.direction →
        is_opposite (apply_pending_turn sampleCycle).direction sampleCycle.direction =
          false) ∧
      (apply_pending_turn sampleCycle).pending_direction = none) :=
  ⟨rfl, rfl, reversal_requests_silently_dropped sampleCycle 5 LEFT rfl rfl⟩

/-- C8: round-reset idempotence — reset_round applied twice equals one
application, and the reset state has start position and heading, no pending
heading, empty trail and trail set, the alive flag, zero ammo, and zeroed
speed and shield timers. -/
theorem reset_round_idempotent (c : LightCycle) :
    reset_round (reset_round c) = reset_round c ∧
    (reset_round c).position = c.start_pos ∧
    (reset_round c).direction = c.start_dir ∧
    (reset_round c).pending_direction = none ∧
    (reset_round c).trail = [] ∧
    (reset_round c).trail_set = ∅ ∧
    (reset_round c).alive = true ∧
    (reset_round c).ammo = 0 ∧
    (reset_round c).power_state.speed_timer = 0 ∧
    (reset_round c).power_state.shield_timer = 0 :=
  ⟨rfl, rfl, rfl, rfl, rfl, rfl, rfl, rfl, rfl, rfl⟩

/-- C9 counterexample: a payload with tournament_best_of = -3 is not rejected —
load stores the negative value unchanged (it is total and raises nothing), and
rounds_to_win silently coerces it to the floor threshold 1. -/
theorem settings_negative_best_of_accepted :
    load_tournament_best_of { tournament_best_of := some (-3) } = -3 ∧
    rounds_to_win (-3) = 1 := by
  refine ⟨rfl, ?_⟩
  decide

/-- C9 amended: SettingsManager.load performs no range validation on the
tournament best-of count — any integer, malformed (negative) or not, is
accepted as-is, and the derived rounds_to_win threshold is clamped to ≥ 1
downstream instead of an error being surfaced at construction time. -/
theorem settings_load_accepts_any_best_of (n : Int) :
    load_tournament_best_of { tournament_best_of := some n } = n ∧
    load_tournament_best_of { tournament_best_of := none } = 5 ∧
    1 ≤ rounds_to_win n :=
  ⟨rfl, rfl, le_max_left 1 _⟩

/-! ## Helper lemmas on trail mutations -/

theorem consumeLoop_position (n : Nat) :
    ∀ c : LightCycle, (consumeLoop n c).position = c.position := by
  induction n with
  | zero => intro c; rfl
  | succ m ih =>
    intro c
    cases ht : c.trail with
    | nil => simp [consumeLoop, ht]
    | cons a t =>
      simp only [consumeLoop, ht]
      exact ih _

theorem consumeLoop_trail_set (n : Nat) :
    ∀ c : LightCycle, n ≤ c.trail.length →
      (consumeLoop n c).trail = c.trail.drop n ∧
      (consumeLoop n c).trail_set = c.trail_set \ (c.trail.take n).toFinset := by
  induction n with
  | zero => intro c _; exact ⟨rfl, by simp [consumeLoop]⟩
  | succ m ih =>
    intro c hle
    cases ht : c.trail with
    | nil => rw [ht] at hle; simp at hle
    | cons a t =>
      have hle2 : m ≤ t.length := by
        rw [ht] at hle
        simpa using Nat.le_of_succ_le_succ hle
      obtain ⟨ih1, ih2⟩ := ih { c with trail := t, trail_set := c.trail_set.erase a } hle2
      constructor
      · simp only [consumeLoop, ht]
        rw [ih1]
        simp [List.drop_succ_cons]
      · simp only [consumeLoop, ht]
        rw [ih2]
        simp only [List.take_succ_cons]
        ext x
        simp only [Finset.mem_sdiff, Finset.mem_erase, List.mem_toFinset, List.mem_cons]
        tauto

theorem consume_trail_segment_spec (c : LightCycle) (k : Nat) :
    (consume_trail_segment c k).trail = c.trail.drop (min k c.trail.length) ∧
    (consume_trail_segment c k).trail_set =
      c.trail_set \ (c.trail.take (min k c.trail.length)).toFinset :=
  consumeLoop_trail_set _ c (min_le_right _ _)

theorem inSync_length_card (c : LightCycle) (h : inSync c) :
    c.trail.length = c.trail_set.card := by
  rcases h with ⟨hn, he⟩
  rw [← he]
  exact (List.toFinset_card_of_nodup hn).symm

theorem drop_toFinset_of_nodup (l : List Pos) (hn : l.Nodup) (n : Nat) :
    (l.drop n).toFinset = l.toFinset \ (l.take n).toFinset := by
  have hsplit : l.take n ++ l.drop n = l := List.take_append_drop n l
  have hn2 : (l.take n ++ l.drop n).Nodup := by rw [hsplit]; exact hn
  rw [List.nodup_append] at hn2
  obtain ⟨-, -, hdisj⟩ := hn2
  ext x
  simp only [List.mem_toFinset, Finset.mem_sdiff]
  constructor
  · intro hx
    refine ⟨?_, fun hx2 => hdisj hx2 hx⟩
    rw [← hsplit]
    exact List.mem_append_right _ hx
  · rintro ⟨hx, hnx⟩
    rw [← hsplit] at hx
    rcases List.mem_append.mp hx with h1 | h2
    · exact absurd h1 hnx
    · exact h2

theorem consume_trail_segment_inSync (c : LightCycle) (h : inSync c) (k : Nat) :
    inSync (consume_trail_segment c k) := by
  rcases h with ⟨hn, he⟩
  obtain ⟨ht, hs⟩ := consume_trail_segment_spec c k
  constructor
  · rw [ht]
    exact hn.sublist (List.drop_sublist _ _)
  · rw [ht, hs, ← he]
    exact drop_toFinset_of_nodup c.trail hn _

theorem apply_inSync (c : LightCycle) (k : PowerUpType) (h : inSync c) :
    inSync (PowerUpManager.apply c k).1 := by
  cases k with
  | speed => exact h
  | shield => exact h
  | eraser => exact consume_trail_segment_inSync c h 35
  | weapon => exact h

theorem apply_position (c : LightCycle) (k : PowerUpType) :
    (PowerUpManager.apply c k).1.position = c.position := by
  cases k with
  | speed => rfl
  | shield => rfl
  | eraser => exact consumeLoop_position _ c
  | weapon => rfl

theorem pickupPhase_inSync (c : LightCycle) (pus : List PowerUpEntity) (h : inSync c) :
    inSync (pickupPhase c pus).1 := by
  unfold pickupPhase
  cases hf : pus.find? (fun pu => pu.position == c.position) with
  | none => simpa [hf] using h
  | some hit =>
    simp only [hf]
    exact apply_inSync c hit.kind h

theorem pickupPhase_position (c : LightCycle) (pus : List PowerUpEntity) :
    (pickupPhase c pus).1.position = c.position := by
  unfold pickupPhase
  cases hf : pus.find? (fun pu => pu.position == c.position) with
  | none => simp [hf]
  | some hit =>
    simp only [hf]
    exact apply_position c hit.kind

theorem cut_trail_inSync (c : LightCycle) (h : inSync c) (position : Pos) :
    inSync (cut_trail c position) := by
  rcases h with ⟨hn, he⟩
  unfold cut_trail
  split
  · constructor
    · exact hn.filter _
    · ext x
      simp only [List.mem_toFinset, List.mem_filter, Finset.mem_erase, ← he,
        decide_eq_true_eq]
      tauto
  · exact ⟨hn, he⟩

theorem push_inSync (c : LightCycle) (h : inSync c) (nxt : Pos)
    (hpos : c.position ∉ c.trail_set) :
    inSync { c with trail := c.trail ++ [c.position],
                    trail_set := insert c.position c.trail_set,
                    position := nxt } := by
  rcases h with ⟨hn, he⟩
  have hpt : c.position ∉ c.trail := by
    intro hmem
    exact hpos (by rw [← he]; exact List.mem_toFinset.mpr hmem)
  constructor
  · rw [List.nodup_append]
    refine ⟨hn, by simp, ?_⟩
    intro x hx hx2
    simp only [List.mem_singleton] at hx2
    subst hx2
    exact hpt hx
  · ext x
    simp only [List.toFinset_append, Finset.mem_union, List.mem_toFinset, ← he,
      Finset.mem_insert, List.mem_singleton]
    tauto

theorem movePhase_inSync (c : LightCycle) (h : inSync c) (deadFlag : Bool) (nxt : Pos)
    (pus : List PowerUpEntity) (hpos : c.position ∉ c.trail_set) :
    inSync (movePhase deadFlag nxt c pus).1 := by
  cases deadFlag with
  | true => exact h
  | false => exact pickupPhase_inSync _ pus (push_inSync c h nxt hpos)

/-- C4 amended: the trail/membership-set synchronization invariant (no
duplicates in the sequence, and the same cells in sequence and set, hence
equal sizes) is preserved by projectile trail cutting and by eraser
consumption unconditionally, and by the post-move trail push provided the
cycle's pre-move position is not already in its trail set; a cycle that
survived onto its own trail cell by shield violates that proviso and the
next push breaks the invariant. -/
theorem trail_sync_preserved (c : LightCycle) (h : inSync c) :
    c.trail.length = c.trail_set.card ∧
    (∀ position, inSync (cut_trail c position)) ∧
    (∀ k, inSync (consume_trail_segment c k)) ∧
    (∀ deadFlag nxt pus, c.position ∉ c.trail_set →
      inSync (movePhase deadFlag nxt c pus).1) :=
  ⟨inSync_length_card c h,
   fun position => cut_trail_inSync c h position,
   fun k => consume_trail_segment_inSync c h k,
   fun deadFlag nxt pus hpos => movePhase_inSync c h deadFlag nxt pus hpos⟩

/-- C4 counterexample: the shielded overlapCycle moves onto its own trail cell
(110,100) and survives — the state is still in sync; on the next tick the
post-move push appends a cell that is already in the trail set, so the
sequence gains a duplicate, len(trail) = 3 while len(trail_set) = 2, and the
sync invariant claimed for every trail mutation fails on the embedded code. -/
theorem trail_sync_push_counterexample :
    inSync overlapCycle ∧
    inSync (movePhase false (110, 100) overlapCycle []).1 ∧
    ¬ inSync
        (movePhase false (120, 100) (movePhase false (110, 100) overlapCycle []).1 []).1 ∧
    (movePhase false (120, 100)
        (movePhase false (110, 100) overlapCycle []).1 []).1.trail.length = 3 ∧
    (movePhase false (120, 100)
        (movePhase false (110, 100) overlapCycle []).1 []).1.trail_set.card = 2 := by
  decide

/-- Witness for C4's amended theorem at the concrete in-sync sampleCycle. -/
theorem trail_sync_preserved_witness :
    inSync sampleCycle ∧ sampleCycle.trail.length = sampleCycle.trail_set.card :=
  ⟨by decide, (trail_sync_preserved sampleCycle (by decide)).1⟩

/-- C5: the eraser power-up delegates to consume_trail_segment with cap 35;
for an in-sync cycle, consuming with cap k removes exactly min(k, N) oldest
cells (the front of the sequence, insertion order being time order), removes
those same cells from the membership set, and afterward the sequence length
still equals the set size. -/
theorem eraser_round_trip (c : LightCycle) (k : Nat) (h : inSync c) :
    (PowerUpManager.apply c PowerUpType.eraser).1 = consume_trail_segment c 35 ∧
    (consume_trail_segment c k).trail = c.trail.drop (min k c.trail.length) ∧
    (consume_trail_segment c k).trail.length = c.trail.length - min k c.trail.length ∧
    (consume_trail_segment c k).trail_set =
      c.trail_set \ (c.trail.take (min k c.trail.length)).toFinset ∧
    (consume_trail_segment c k).trail.length = (consume_trail_segment c k).trail_set.card := by
  obtain ⟨ht, hs⟩ := consume_trail_segment_spec c k
  refine ⟨rfl, ht, ?_, hs, ?_⟩
  · rw [ht, List.length_drop]
  · exact inSync_length_card _ (consume_trail_segment_inSync c h k)

/-- Witness for C5: the two-cell in-sync sampleCycle trail erased with cap 1. -/
theorem eraser_round_trip_witness :
    inSync sampleCycle ∧
    (consume_trail_segment sampleCycle 1).trail =
      sampleCycle.trail.drop (min 1 sampleCycle.trail.length) :=
  ⟨by decide, (eraser_round_trip sampleCycle 1 (by decide)).2.1⟩

/-- C10: the movement-and-pickup phase skips a cycle marked dead — position,
trail sequence, trail set, ammo, and the power-up list are all unchanged, so
a dead cycle cannot pick anything up; a surviving cycle first has its previous
position appended to trail sequence and set and its position advanced to the
computed next position, then undergoes the pickup test (which never moves it
off the advanced position). -/
theorem dead_cycle_skipped_by_movement (nxt : Pos) (c : LightCycle)
    (pus : List PowerUpEntity) :
    (movePhase true nxt c pus).1.position = c.position ∧
    (movePhase true nxt c pus).1.trail = c.trail ∧
    (movePhase true nxt c pus).1.trail_set = c.trail_set ∧
    (movePhase true nxt c pus).1.ammo = c.ammo ∧
    (movePhase true nxt c pus).2 = pus ∧
    movePhase false nxt c pus =
      pickupPhase { c with trail := c.trail ++ [c.position],
                           trail_set := insert c.position c.trail_set,
                           position := nxt } pus ∧
    (movePhase false nxt c pus).1.position = nxt := by
  refine ⟨rfl, rfl, rfl, rfl, rfl, rfl, ?_⟩
  exact pickupPhase_position _ pus

/-! ## Helper lemmas on the AI decision module -/

theorem is_opposite_self_false (d : Pos) (h : d ∈ DIRECTIONS) :
    is_opposite d d = false := by
  simp only [DIRECTIONS, UP, DOWN, LEFT, RIGHT, List.mem_cons, List.mem_singleton,
    List.not_mem_nil, or_false] at h
  rcases h with h | h | h | h <;> subst h <;> decide

theorem mem_safe_directions_not_opposite (s : GameSnapshot) (la : Nat) (d : Pos)
    (h : d ∈ safe_directions s la) : is_opposite d s.ai_direction = false := by
  unfold safe_directions at h
  rw [List.mem_filter] at h
  have h2 := h.2
  rw [Bool.and_eq_true, Bool.not_eq_true'] at h2
  exact h2.1

theorem getD_mem_of_lt (l : List Pos) : ∀ (n : Nat) (d : Pos), n < l.length →
    l.getD n d ∈ l := by
  induction l with
  | nil => intro n d h; simp at h
  | cons a t ih =>
    intro n d h
    cases n with
    | zero => simp
    | succ m =>
      rw [List.getD_cons_succ]
      exact List.mem_cons_of_mem a (ih m d (by simpa using Nat.lt_of_succ_lt_succ h))

theorem firstMaxBy_mem {β : Type} [LinearOrder β] (f : Pos → β) :
    ∀ (l : List Pos) (x : Pos), firstMaxBy f l = some x → x ∈ l := by
  intro l
  induction l with
  | nil => intro x h; simp [firstMaxBy] at h
  | cons a t ih =>
    intro x h
    unfold firstMaxBy at h
    cases hm : firstMaxBy f t with
    | none =>
      rw [hm] at h
      simp only [Option.some.injEq] at h
      subst h
      exact List.mem_cons_self a t
    | some y =>
      rw [hm] at h
      by_cases hlt : f a < f y
      · simp only [if_pos hlt, Option.some.injEq] at h
        subst h
        exact List.mem_cons_of_mem a (ih y hm)
      · simp only [if_neg hlt, Option.some.injEq] at h
        subst h
        exact List.mem_cons_self a t

theorem easyChoice_cases (r : RandOracle) (s : GameSnapshot) :
    easyChoice r s = s.ai_direction ∨ easyChoice r s ∈ safe_directions s 1 := by
  simp only [easyChoice]
  split
  · exact Or.inl rfl
  · next hne =>
    split
    · exact Or.inl rfl
    · refine Or.inr (getD_mem_of_lt _ _ _ (Nat.mod_lt _ ?_))
      have hnil : safe_directions s 1 ≠ [] := by
        intro hn
        exact hne (by simp [hn])
      exact List.length_pos.mpr hnil

theorem mediumChoice_cases (s : GameSnapshot) :
    mediumChoice s = s.ai_direction ∨ mediumChoice s ∈ safe_directions s 3 := by
  simp only [mediumChoice]
  split
  · exact Or.inl rfl
  · cases hm : firstMaxBy (fun d => space_score s d 4) (safe_directions s 3) with
    | none => exact Or.inl (by simp [hm])
    | some y =>
      refine Or.inr ?_
      simp only [hm, Option.getD_some]
      exact firstMaxBy_mem _ _ y hm

theorem hardChoice_cases (s : GameSnapshot) :
    hardChoice s = s.ai_direction ∨ hardChoice s ∈ safe_directions s 4 := by
  simp only [hardChoice]
  split
  · exact Or.inl rfl
  · cases hm : firstMaxBy (hardScore s) (safe_directions s 4) with
    | none => exact Or.inl (by simp [hm])
    | some y =>
      refine Or.inr ?_
      simp only [hm, Option.getD_some]
      exact firstMaxBy_mem _ _ y hm

/-- C6: for every difficulty tier, every outcome of the internal random
source, and every snapshot whose current AI heading is one of the four unit
directions, choose_direction never returns the exact reverse of the current
heading (when no safe option exists it returns the current heading itself,
which is not its own reverse). -/
theorem ai_never_reverses (difficulty : AIDifficulty) (r : RandOracle)
    (s : GameSnapshot) (h : s.ai_direction ∈ DIRECTIONS) :
    is_opposite (choose_direction difficulty r s) s.ai_direction = false := by
  have hself := is_opposite_self_false s.ai_direction h
  cases difficulty with
  | easy =>
    rcases easyChoice_cases r s with hc | hc
    · show is_opposite (easyChoice r s) s.ai_direction = false
      rw [hc]
      exact hself
    · exact mem_safe_directions_not_opposite s 1 _ hc
  | medium =>
    rcases mediumChoice_cases s with hc | hc
    · show is_opposite (mediumChoice s) s.ai_direction = false
      rw [hc]
      exact hself
    · exact mem_safe_directions_not_opposite s 3 _ hc
  | hard =>
    rcases hardChoice_cases s with hc | hc
    · show is_opposite (hardChoice s) s.ai_direction = false
      rw [hc]
      exact hself
    · exact mem_safe_directions_not_opposite s 4 _ hc

/-- Witness for C6: a concrete snapshot with a wall directly ahead, checked at
all three difficulty tiers and both outcomes of the keep-heading draw. -/
theorem ai_never_reverses_witness :
    (((100, 100), (1, 0), (200, 100), ({(110, 100)} : Finset Pos)) :
        Pos × Pos × Pos × Finset Pos).2.1 ∈ DIRECTIONS ∧
    is_opposite
      (choose_direction AIDifficulty.easy { keepCurrent := true, choiceIx := 0 }
        { ai_position := (100, 100), ai_direction := (1, 0),
          opponent_position := (200, 100), occupied := {(110, 100)} })
      (1, 0) = false ∧
    is_opposite
      (choose_direction AIDifficulty.medium { keepCurrent := false, choiceIx := 1 }
        { ai_position := (100, 100), ai_direction := (1, 0),
          opponent_position := (200, 100), occupied := {(110, 100)} })
      (1, 0) = false ∧
    is_opposite
      (choose_direction AIDifficulty.hard { keepCurrent := false, choiceIx := 2 }
        { ai_position := (100, 100), ai_direction := (1, 0),
          opponent_position := (200, 100), occupied := {(110, 100)} })
      (1, 0) = false :=
  ⟨by decide,
   ai_never_reverses AIDifficulty.easy { keepCurrent := true, choiceIx := 0 }
     { ai_position := (100, 100), ai_direction := (1, 0),
       opponent_position := (200, 100), occupied := {(110, 100)} } (by decide),
   ai_never_reverses AIDifficulty.medium { keepCurrent := false, choiceIx := 1 }
     { ai_position := (100, 100), ai_direction := (1, 0),
       opponent_position := (200, 100), occupied := {(110, 100)} } (by decide),
   ai_never_reverses AIDifficulty.hard { keepCurrent := false, choiceIx := 2 }
     { ai_position := (100, 100), ai_direction := (1, 0),
       opponent_position := (200, 100), occupied := {(110, 100)} } (by decide)⟩

theorem le_bfsAux (occ : Finset Pos) :
    ∀ (fuel : Nat) (frontier : List Pos) (visited : Finset Pos) (score : Nat),
      score ≤ bfsAux occ fuel frontier visited score := by
  intro fuel
  induction fuel with
  | zero => intro frontier visited score; exact Nat.le_refl _
  | succ n ih =>
    intro frontier visited score
    cases frontier with
    | nil => exact Nat.le_refl _
    | cons current rest =>
      calc score ≤ score + 1 := Nat.le_succ score
        _ ≤ _ := ih _ _ _

/-- C7 amended: a candidate direction whose first cell is occupied or out of
bounds scores the -9999 sentinel; a direction whose first cell is free and in
bounds scores the non-negative flood-fill count, which is strictly greater
than the sentinel for every depth, and is at least 1 whenever depth ≥ 1 (at
depth 0 the node budget 0·40 is exhausted immediately and the count is 0). -/
theorem space_score_sentinel (s : GameSnapshot) (d : Pos) (depth : Nat) :
    (in_bounds (add_dir s.ai_position d) = false ∨ add_dir s.ai_position d ∈ s.occupied →
      space_score s d depth = -9999) ∧
    (in_bounds (add_dir s.ai_position d) = true → add_dir s.ai_position d ∉ s.occupied →
      0 ≤ space_score s d depth ∧ -9999 < space_score s d depth ∧
      (1 ≤ depth → 1 ≤ space_score s d depth)) := by
  constructor
  · intro h
    unfold space_score
    rcases h with h | h
    · simp [h]
    · simp [h]
  · intro hb hm
    unfold space_score
    rw [if_neg (by simp [hb, hm])]
    refine ⟨Int.natCast_nonneg _, ?_, ?_⟩
    · exact lt_of_lt_of_le (by norm_num) (Int.natCast_nonneg _)
    · intro hd
      obtain ⟨m, hm40⟩ : ∃ m, depth * 40 = m + 1 :=
        ⟨depth * 40 - 1, by omega⟩
      rw [hm40]
      have hstep :
          bfsAux s.occupied (m + 1) [add_dir s.ai_position d] {add_dir s.ai_position d} 0 =
            bfsAux s.occupied m
              (DIRECTIONS.foldl
                (fun (acc : List Pos × Finset Pos) candidate =>
                  let nxt := add_dir (add_dir s.ai_position d) candidate
                  if decide (nxt ∈ acc.2) || decide (nxt ∈ s.occupied) ||
                      !in_bounds nxt then acc
                  else (acc.1 ++ [nxt], insert nxt acc.2))
                ([], {add_dir s.ai_position d})).1
              (DIRECTIONS.foldl
                (fun (acc : List Pos × Finset Pos) candidate =>
                  let nxt := add_dir (add_dir s.ai_position d) candidate
                  if decide (nxt ∈ acc.2) || decide (nxt ∈ s.occupied) ||
                      !in_bounds nxt then acc
                  else (acc.1 ++ [nxt], insert nxt acc.2))
                ([], {add_dir s.ai_position d})).2 1 := rfl
      rw [hstep]
      have := le_bfsAux s.occupied m
        (DIRECTIONS.foldl
          (fun (acc : List Pos × Finset Pos) candidate =>
            let nxt := add_dir (add_dir s.ai_position d) candidate
            if decide (nxt ∈ acc.2) || decide (nxt ∈ s.occupied) ||
                !in_bounds nxt then acc
            else (acc.1 ++ [nxt], insert nxt acc.2))
          ([], {add_dir s.ai_position d})).1
        (DIRECTIONS.foldl
          (fun (acc : List Pos × Finset Pos) candidate =>
            let nxt := add_dir (add_dir s.ai_position d) candidate
            if decide (nxt ∈ acc.2) || decide (nxt ∈ s.occupied) ||
                !in_bounds nxt then acc
            else (acc.1 ++ [nxt], insert nxt acc.2))
          ([], {add_dir s.ai_position d})).2 1
      exact_mod_cast this

/-- C7 counterexample: at depth 0 (node budget 0·40 = 0) a direction with a
free in-bounds first cell scores 0, not at least 1, so the claim's assertion
that a free heading's score is always at least 1 fails for this depth while
the sentinel branch still returns -9999. -/
theorem space_score_depth_zero_counterexample :
    in_bounds (add_dir (100, 100) RIGHT) = true ∧
    add_dir (100, 100) RIGHT ∉ (∅ : Finset Pos) ∧
    space_score
      { ai_position := (100, 100), ai_direction := (1, 0),
        opponent_position := (200, 100), occupied := ∅ } RIGHT 0 = 0 ∧
    ¬ (1 ≤ space_score
      { ai_position := (100, 100), ai_direction := (1, 0),
        opponent_position := (200, 100), occupied := ∅ } RIGHT 0) := by
  refine ⟨by decide, by decide, by decide, by decide⟩

/-- Witness for C7's amended theorem: a blocked-left start returns the
sentinel, and a free depth-1 start scores at least 1. -/
theorem space_score_sentinel_witness :
    (in_bounds (add_dir ((0 : Int), (0 : Int)).1 LEFT) = false ∨
      add_dir ((0 : Int), (0 : Int)) LEFT ∈ (∅ : Finset Pos)) ∧
    space_score
      { ai_position := (0, 0), ai_direction := (1, 0),
        opponent_position := (200, 100), occupied := ∅ } LEFT 4 = -9999 ∧
    (1 : Int) ≤ space_score
      { ai_position := (100, 100), ai_direction := (1, 0),
        opponent_position := (200, 100), occupied := ∅ } RIGHT 1 :=
  ⟨Or.inl (by decide),
   (space_score_sentinel
     { ai_position := (0, 0), ai_direction := (1, 0),
       opponent_position := (200, 100), occupied := ∅ } LEFT 4).1
     (Or.inl (by decide)),
   ((space_score_sentinel
     { ai_position := (100, 100), ai_direction := (1, 0),
       opponent_position := (200, 100), occupied := ∅ } RIGHT 1).2
     (by decide) (by decide)).2.2 (by decide)⟩

end Gastron
